import Mathlib

/-!
# Verification of the to-do persistence layer

A shallow embedding of the CRUD persistence layer of the to-do/task manager
(`app/models.py`, `app/todo_service.py`, `app/task_service.py`).

Modelling choices:
* The database table is a `TodoStore`: the list of rows in storage
  (insertion) order together with the auto-increment counter for the next
  primary key.  Each service call passes the store explicitly instead of
  going through the global session provider.
* `datetime.utcnow()` is modelled by an explicit `now : Nat` argument to
  every operation that reads the clock; the clock is monotone across a run
  (encoded in the `Reachable` relation below).
* `session.get(Todo, id)` is lookup of the row with the given primary key;
  `session.delete(todo)` removes that row.
* Pydantic/SQLModel validation of the non-table input shapes (`TodoCreate`,
  `TodoUpdate`) is modelled by `validate` smart constructors that mirror the
  declared `Field` constraints (`max_length`, required `title`).
-/

namespace TodoApp

/-- The persisted `Todo` row (`app/models.py`, class `Todo`): primary key,
title, optional description, completion flag, and the two UTC timestamps.
The `id` is `Nat` because every persisted row has its key assigned. -/
structure Todo where
  id : Nat
  title : String
  description : Option String
  completed : Bool
  created_at : Nat
  updated_at : Nat
  deriving Repr, DecidableEq

/-- The `todos` table: rows in storage (insertion) order plus the
auto-increment counter handing out the next primary key. -/
structure TodoStore where
  todos : List Todo
  nextId : Nat
  deriving Repr, DecidableEq

/-- A freshly created (empty) database; auto-increment keys start at 1. -/
def emptyStore : TodoStore := ⟨[], 1⟩

/-- Input shape for creation (`app/models.py`, class `TodoCreate`). -/
structure TodoCreate where
  title : String
  description : Option String
  deriving Repr, DecidableEq

/-- Input shape for partial update (`app/models.py`, class `TodoUpdate`):
every field optional, `none` meaning "leave unchanged". -/
structure TodoUpdate where
  title : Option String
  description : Option String
  completed : Option Bool
  deriving Repr, DecidableEq

/-- Pydantic construction of `TodoCreate` from raw input: `title` is
required with `max_length=200`, `description` optional with
`max_length=1000`; `none` is returned exactly when validation raises. -/
def TodoCreate.validate (title : Option String) (description : Option String) :
    Option TodoCreate :=
  match title with
  | none => none
  | some t =>
    if t.length ≤ 200 then
      match description with
      | none => some ⟨t, none⟩
      | some d => if d.length ≤ 1000 then some ⟨t, some d⟩ else none
    else none

/-- Pydantic construction of `TodoUpdate` from raw input: all fields
optional, a supplied `title` bounded by `max_length=200`, a supplied
`description` by `max_length=1000`. -/
def TodoUpdate.validate (title description : Option String) (completed : Option Bool) :
    Option TodoUpdate :=
  match title with
  | some t =>
    if t.length ≤ 200 then
      match description with
      | none => some ⟨some t, none, completed⟩
      | some d => if d.length ≤ 1000 then some ⟨some t, some d, completed⟩ else none
    else none
  | none =>
    match description with
    | none => some ⟨none, none, completed⟩
    | some d => if d.length ≤ 1000 then some ⟨none, some d, completed⟩ else none

/-- `session.get(Todo, todo_id)`: the row with the given primary key. -/
def TodoStore.getById (s : TodoStore) (todo_id : Nat) : Option Todo :=
  s.todos.find? (fun t => t.id == todo_id)

/-- Insert into a list kept in descending `key` order (the embedding of the
SQL `ORDER BY key DESC`; the order of rows with equal keys is not specified
by the query and is a tie-break choice of this model). -/
def insertDesc {α : Type} (key : α → Nat) (a : α) : List α → List α
  | [] => [a]
  | b :: rest => if key b ≤ key a then a :: b :: rest else b :: insertDesc key a rest

/-- Sort a list into descending `key` order. -/
def sortDesc {α : Type} (key : α → Nat) : List α → List α
  | [] => []
  | a :: rest => insertDesc key a (sortDesc key rest)

/-- `create_todo` (`app/todo_service.py`): build the row with the supplied
title and description, `completed=False`, both timestamps stamped with the
current instant, and insert it, letting the store assign the next key. -/
def create_todo (todo_data : TodoCreate) (now : Nat) (s : TodoStore) :
    Todo × TodoStore :=
  let todo : Todo :=
    { id := s.nextId
      title := todo_data.title
      description := todo_data.description
      completed := false
      created_at := now
      updated_at := now }
  (todo, { todos := s.todos ++ [todo], nextId := s.nextId + 1 })

/-- `get_all_todos` (`app/todo_service.py`):
`select(Todo).order_by(desc(Todo.created_at))`. -/
def get_all_todos (s : TodoStore) : List Todo :=
  sortDesc (fun t => t.created_at) s.todos

/-- `get_todo` (`app/todo_service.py`): fetch by primary key, `none` when
the id does not exist. -/
def get_todo (todo_id : Nat) (s : TodoStore) : Option Todo :=
  s.getById todo_id

/-- The field-by-field overwrite performed by `update_todo` on the fetched
row: each `if todo_data.x is not None: todo.x = todo_data.x` guard, then
the unconditional `todo.updated_at = datetime.utcnow()`. -/
def applyUpdate (todo : Todo) (todo_data : TodoUpdate) (now : Nat) : Todo :=
  { todo with
    title := match todo_data.title with | some v => v | none => todo.title
    description :=
      match todo_data.description with | some v => some v | none => todo.description
    completed := match todo_data.completed with | some v => v | none => todo.completed
    updated_at := now }

/-- The in-place mutation performed by `toggle_todo_completion` on the
fetched row: negate `completed`, refresh `updated_at`. -/
def applyToggle (todo : Todo) (now : Nat) : Todo :=
  { todo with completed := !todo.completed, updated_at := now }

/-- `update_todo` (`app/todo_service.py`): fetch the row; if absent return
the not-found sentinel and leave the store untouched; otherwise overwrite
exactly the supplied fields, refresh `updated_at`, and commit. -/
def update_todo (todo_id : Nat) (todo_data : TodoUpdate) (now : Nat) (s : TodoStore) :
    Option Todo × TodoStore :=
  match s.getById todo_id with
  | none => (none, s)
  | some todo =>
    let todo' : Todo := applyUpdate todo todo_data now
    (some todo', { s with todos := s.todos.map (fun u => if u.id == todo_id then todo' else u) })

/-- `toggle_todo_completion` (`app/todo_service.py`): fetch the row; if
absent return the sentinel; otherwise negate `completed`, refresh
`updated_at`, and commit. -/
def toggle_todo_completion (todo_id : Nat) (now : Nat) (s : TodoStore) :
    Option Todo × TodoStore :=
  match s.getById todo_id with
  | none => (none, s)
  | some todo =>
    let todo' : Todo := applyToggle todo now
    (some todo', { s with todos := s.todos.map (fun u => if u.id == todo_id then todo' else u) })

/-- The negation of the stored item's current `completed` value, read off
the store; for an absent id the value is irrelevant (the update returns the
sentinel whatever it is) and is fixed to `true`. -/
def toggledValue (todo_id : Nat) (s : TodoStore) : Bool :=
  match get_todo todo_id s with
  | some t => !t.completed
  | none => true

/-- `delete_todo` (`app/todo_service.py`): fetch the row; `False` if absent,
otherwise remove that row and return `True`. -/
def delete_todo (todo_id : Nat) (s : TodoStore) : Bool × TodoStore :=
  match s.getById todo_id with
  | none => (false, s)
  | some _ => (true, { s with todos := s.todos.eraseP (fun t => t.id == todo_id) })

/-- One mutating service call, for describing runs of the service. -/
inductive Op where
  | create (d : TodoCreate)
  | update (id : Nat) (d : TodoUpdate)
  | toggle (id : Nat)
  | delete (id : Nat)
  deriving Repr, DecidableEq

/-- The store left behind by one service call issued at instant `now`. -/
def applyOp (op : Op) (now : Nat) (s : TodoStore) : TodoStore :=
  match op with
  | .create d => (create_todo d now s).2
  | .update id d => (update_todo id d now s).2
  | .toggle id => (toggle_todo_completion id now s).2
  | .delete id => (delete_todo id s).2

/-- `Reachable now s`: the store `s` can be produced from a fresh database
by a sequence of service calls whose clock readings never decrease, the
last one at instant `now` (the clock is UTC time, monotone across a run). -/
inductive Reachable : Nat → TodoStore → Prop
  | init : Reachable 0 emptyStore
  | step {now now' : Nat} {s : TodoStore} (op : Op) :
      Reachable now s → now ≤ now' → Reachable now' (applyOp op now' s)

/-- Modelled from the spec: the `Task` model of the simpler variant (§3 of
the spec) — id, required title, completion flag and `created_at`, with no
description and no `updated_at`.  `app/task_service.py` imports it from
`app.models`, but the `Task` class itself is not in the source tree. -/
structure Task where
  id : Nat
  title : String
  completed : Bool
  created_at : Nat
  deriving Repr, DecidableEq

/-- The `tasks` table, analogous to `TodoStore`. -/
structure TaskStore where
  tasks : List Task
  nextId : Nat
  deriving Repr, DecidableEq

/-- A freshly created (empty) task database. -/
def emptyTaskStore : TaskStore := ⟨[], 1⟩

/-- Aggregate counts returned by `TaskService.get_task_stats`. -/
structure TaskStats where
  total : Nat
  completed : Nat
  pending : Nat
  deriving Repr, DecidableEq

namespace TaskService

/-- `TaskService.get_all_tasks` (`app/task_service.py`):
`select(Task).order_by(desc(Task.created_at))`. -/
def get_all_tasks (s : TaskStore) : List Task :=
  sortDesc (fun t => t.created_at) s.tasks

/-- `TaskService.get_task_stats` (`app/task_service.py`): scan the list
returned by `get_all_tasks`; `total` is its length, `completed` counts the
completed tasks, `pending` is the difference. -/
def get_task_stats (s : TaskStore) : TaskStats :=
  let tasks := get_all_tasks s
  let total := tasks.length
  let completed := tasks.countP (fun t => t.completed)
  let pending := total - completed
  { total := total, completed := completed, pending := pending }

end TaskService

/-! ## Helper lemmas about the descending sort -/

theorem insertDesc_perm {α : Type} (key : α → Nat) (a : α) (l : List α) :
    List.Perm (insertDesc key a l) (a :: l) := by
  induction l with
  | nil => exact List.Perm.refl _
  | cons b rest ih =>
    simp only [insertDesc]
    split
    · exact List.Perm.refl _
    · exact (ih.cons b).trans (List.Perm.swap a b rest)

theorem sortDesc_perm {α : Type} (key : α → Nat) (l : List α) :
    List.Perm (sortDesc key l) l := by
  induction l with
  | nil => exact List.Perm.refl _
  | cons a rest ih =>
    exact (insertDesc_perm key a (sortDesc key rest)).trans (ih.cons a)

theorem mem_insertDesc {α : Type} {key : α → Nat} {a b : α} {l : List α}
    (h : b ∈ insertDesc key a l) : b = a ∨ b ∈ l :=
  List.mem_cons.mp ((insertDesc_perm key a l).mem_iff.mp h)

theorem insertDesc_sorted {α : Type} {key : α → Nat} {l : List α}
    (h : List.Sorted (fun x y => key y ≤ key x) l) (a : α) :
    List.Sorted (fun x y => key y ≤ key x) (insertDesc key a l) := by
  induction l with
  | nil => simp [insertDesc]
  | cons b rest ih =>
    rw [List.sorted_cons] at h
    simp only [insertDesc]
    split
    · rename_i hba
      rw [List.sorted_cons]
      constructor
      · intro c hc
        rcases List.mem_cons.mp hc with rfl | hc
        · exact hba
        · exact le_trans (h.1 c hc) hba
      · exact List.sorted_cons.mpr h
    · rename_i hba
      rw [List.sorted_cons]
      constructor
      · intro c hc
        rcases mem_insertDesc hc with rfl | hc
        · exact le_of_not_le hba
        · exact h.1 c hc
      · exact ih h.2

theorem sortDesc_sorted {α : Type} (key : α → Nat) (l : List α) :
    List.Sorted (fun x y => key y ≤ key x) (sortDesc key l) := by
  induction l with
  | nil => simp [sortDesc]
  | cons a rest ih => exact insertDesc_sorted ih a

/-! ## Helper lemmas about primary-key lookup -/

theorem getById_eq_none {s : TodoStore} {todo_id : Nat} :
    s.getById todo_id = none ↔ ∀ t ∈ s.todos, t.id ≠ todo_id := by
  simp [TodoStore.getById, List.find?_eq_none]

theorem getById_some_id {s : TodoStore} {todo_id : Nat} {t : Todo}
    (h : s.getById todo_id = some t) : t.id = todo_id := by
  have := List.find?_some h
  simpa using this

theorem getById_some_mem {s : TodoStore} {todo_id : Nat} {t : Todo}
    (h : s.getById todo_id = some t) : t ∈ s.todos :=
  List.mem_of_find?_eq_some h

/-! ## Characterizations of the service operations -/

theorem update_todo_eq_none {todo_id now : Nat} {d : TodoUpdate} {s : TodoStore}
    (h : s.getById todo_id = none) : update_todo todo_id d now s = (none, s) := by
  simp [update_todo, h]

theorem update_todo_eq_some {todo_id now : Nat} {d : TodoUpdate} {s : TodoStore} {todo : Todo}
    (h : s.getById todo_id = some todo) :
    update_todo todo_id d now s =
      (some (applyUpdate todo d now),
        ⟨s.todos.map (fun u => if u.id == todo_id then applyUpdate todo d now else u),
          s.nextId⟩) := by
  simp [update_todo, h]

theorem toggle_eq_none {todo_id now : Nat} {s : TodoStore}
    (h : s.getById todo_id = none) : toggle_todo_completion todo_id now s = (none, s) := by
  simp [toggle_todo_completion, h]

theorem toggle_eq_some {todo_id now : Nat} {s : TodoStore} {todo : Todo}
    (h : s.getById todo_id = some todo) :
    toggle_todo_completion todo_id now s =
      (some (applyToggle todo now),
        ⟨s.todos.map (fun u => if u.id == todo_id then applyToggle todo now else u),
          s.nextId⟩) := by
  simp [toggle_todo_completion, h]

theorem delete_eq_none {todo_id : Nat} {s : TodoStore}
    (h : s.getById todo_id = none) : delete_todo todo_id s = (false, s) := by
  simp [delete_todo, h]

theorem delete_eq_some {todo_id : Nat} {s : TodoStore} {todo : Todo}
    (h : s.getById todo_id = some todo) :
    delete_todo todo_id s =
      (true, ⟨s.todos.eraseP (fun t => t.id == todo_id), s.nextId⟩) := by
  simp [delete_todo, h]

/-! ## Helper lemmas about the in-place row update used by update/toggle -/

theorem mapUpdate_ids {todo_id : Nat} {todo' : Todo} (hid : todo'.id = todo_id)
    (l : List Todo) :
    (l.map (fun u => if u.id == todo_id then todo' else u)).map Todo.id = l.map Todo.id := by
  induction l with
  | nil => rfl
  | cons u rest ih =>
    simp only [List.map_cons]
    by_cases hu : (u.id == todo_id) = true
    · rw [if_pos hu, ih, hid, beq_iff_eq.mp hu]
    · rw [if_neg hu, ih]

theorem mem_mapUpdate {todo_id : Nat} {todo' v : Todo} {l : List Todo}
    (h : v ∈ l.map (fun u => if u.id == todo_id then todo' else u)) :
    v = todo' ∨ v ∈ l := by
  rcases List.mem_map.mp h with ⟨u, hu, rfl⟩
  by_cases h' : (u.id == todo_id) = true
  · rw [if_pos h']
    exact Or.inl rfl
  · rw [if_neg h']
    exact Or.inr hu

/-! ## Store invariants along runs of the service -/

/-- Every stored primary key is below the auto-increment counter. -/
def IdsFresh (s : TodoStore) : Prop := ∀ t ∈ s.todos, t.id < s.nextId

/-- Stored primary keys are pairwise distinct (the PRIMARY KEY constraint). -/
def NodupIds (s : TodoStore) : Prop := (s.todos.map Todo.id).Nodup

/-- Every stored row satisfies `created_at ≤ updated_at`, and was last
written no later than instant `now`. -/
def TimeOK (now : Nat) (s : TodoStore) : Prop :=
  ∀ t ∈ s.todos, t.created_at ≤ t.updated_at ∧ t.updated_at ≤ now

/-- The conjunction of the store invariants. -/
def StoreInv (now : Nat) (s : TodoStore) : Prop :=
  IdsFresh s ∧ NodupIds s ∧ TimeOK now s

theorem timeOK_mono {now now' : Nat} {s : TodoStore} (h : TimeOK now s)
    (hle : now ≤ now') : TimeOK now' s :=
  fun t ht => ⟨(h t ht).1, le_trans (h t ht).2 hle⟩

theorem storeInv_mapUpdate {now now' id : Nat} {s : TodoStore} {todo todo' : Todo}
    (hfresh : IdsFresh s) (hnodup : NodupIds s) (htime : TimeOK now s)
    (hle : now ≤ now') (hfind : s.getById id = some todo)
    (hid : todo'.id = todo.id) (hca : todo'.created_at = todo.created_at)
    (hua : todo'.updated_at = now') :
    StoreInv now'
      ⟨s.todos.map (fun u => if u.id == id then todo' else u), s.nextId⟩ := by
  have hmem : todo ∈ s.todos := getById_some_mem hfind
  have hid' : todo'.id = id := hid.trans (getById_some_id hfind)
  refine ⟨?_, ?_, ?_⟩
  · intro t ht
    rcases mem_mapUpdate ht with rfl | ht
    · exact hid ▸ hfresh todo hmem
    · exact hfresh t ht
  · show ((s.todos.map _).map Todo.id).Nodup
    rw [mapUpdate_ids hid']
    exact hnodup
  · intro t ht
    rcases mem_mapUpdate ht with rfl | ht
    · refine ⟨?_, le_of_eq hua⟩
      rw [hca, hua]
      exact le_trans (htime todo hmem).1 (le_trans (htime todo hmem).2 hle)
    · exact (timeOK_mono htime hle) t ht

theorem storeInv_applyOp {now now' : Nat} {s : TodoStore} (op : Op)
    (h : StoreInv now s) (hle : now ≤ now') : StoreInv now' (applyOp op now' s) := by
  obtain ⟨hfresh, hnodup, htime⟩ := h
  cases op with
  | create d =>
    refine ⟨?_, ?_, ?_⟩
    · intro t ht
      rcases List.mem_append.mp ht with ht | ht
      · exact lt_trans (hfresh t ht) (Nat.lt_succ_self _)
      · rcases List.mem_singleton.mp ht with rfl
        exact Nat.lt_succ_self _
    · show ((s.todos ++ [_]).map Todo.id).Nodup
      rw [List.map_append]
      refine (List.nodup_append).mpr ⟨hnodup, List.nodup_singleton _, ?_⟩
      intro a ha hb
      rcases List.mem_map.mp ha with ⟨t, ht, rfl⟩
      have hb' : t.id = s.nextId := by simpa using hb
      exact absurd hb' (Nat.ne_of_lt (hfresh t ht))
    · intro t ht
      rcases List.mem_append.mp ht with ht | ht
      · exact (timeOK_mono htime hle) t ht
      · rcases List.mem_singleton.mp ht with rfl
        exact ⟨le_refl _, le_refl _⟩
  | update id d =>
    show StoreInv now' (update_todo id d now' s).2
    cases hfind : s.getById id with
    | none =>
      rw [update_todo_eq_none hfind]
      exact ⟨hfresh, hnodup, timeOK_mono htime hle⟩
    | some todo =>
      rw [update_todo_eq_some hfind]
      exact storeInv_mapUpdate hfresh hnodup htime hle hfind rfl rfl rfl
  | toggle id =>
    show StoreInv now' (toggle_todo_completion id now' s).2
    cases hfind : s.getById id with
    | none =>
      rw [toggle_eq_none hfind]
      exact ⟨hfresh, hnodup, timeOK_mono htime hle⟩
    | some todo =>
      rw [toggle_eq_some hfind]
      exact storeInv_mapUpdate hfresh hnodup htime hle hfind rfl rfl rfl
  | delete id =>
    show StoreInv now' (delete_todo id s).2
    cases hfind : s.getById id with
    | none =>
      rw [delete_eq_none hfind]
      exact ⟨hfresh, hnodup, timeOK_mono htime hle⟩
    | some todo =>
      rw [delete_eq_some hfind]
      have hsub : List.Sublist (s.todos.eraseP (fun t => t.id == id)) s.todos :=
        List.eraseP_sublist _
      refine ⟨?_, ?_, ?_⟩
      · intro t ht
        exact hfresh t (hsub.mem ht)
      · exact List.Nodup.sublist (hsub.map Todo.id) hnodup
      · intro t ht
        exact (timeOK_mono htime hle) t (hsub.mem ht)

/-- Every reachable store satisfies the invariants. -/
theorem reachable_storeInv {now : Nat} {s : TodoStore} (h : Reachable now s) :
    StoreInv now s := by
  induction h with
  | init =>
    refine ⟨fun t ht => ?_, ?_, fun t ht => ?_⟩
    · simp [emptyStore] at ht
    · show (List.map Todo.id emptyStore.todos).Nodup
      simp [emptyStore]
    · simp [emptyStore] at ht
  | step op hr hle ih => exact storeInv_applyOp op ih hle

/-! ## The claims -/

/-- C1: for every existing item and every partial update input,
`update_todo` overwrites exactly the fields present in the partial set and
leaves absent fields at their prior values; `id` and `created_at` are never
changed; on every successful update `updated_at` is refreshed to the
current instant. -/
theorem update_overwrites_exactly_supplied_fields
    (todo_id now : Nat) (d : TodoUpdate) (s : TodoStore) (t : Todo)
    (h : get_todo todo_id s = some t) :
    ∃ t', (update_todo todo_id d now s).1 = some t' ∧
      t'.id = t.id ∧
      t'.created_at = t.created_at ∧
      t'.updated_at = now ∧
      (d.title = none → t'.title = t.title) ∧
      (∀ v, d.title = some v → t'.title = v) ∧
      (d.description = none → t'.description = t.description) ∧
      (∀ v, d.description = some v → t'.description = some v) ∧
      (d.completed = none → t'.completed = t.completed) ∧
      (∀ v, d.completed = some v → t'.completed = v) := by
  refine ⟨applyUpdate t d now, ?_, rfl, rfl, rfl, ?_, ?_, ?_, ?_, ?_, ?_⟩
  · rw [update_todo_eq_some h]
  · intro hd
    simp [applyUpdate, hd]
  · intro v hv
    simp [applyUpdate, hv]
  · intro hd
    simp [applyUpdate, hd]
  · intro v hv
    simp [applyUpdate, hv]
  · intro hd
    simp [applyUpdate, hd]
  · intro v hv
    simp [applyUpdate, hv]

/-- Witness for C1: updating only `completed` on a concrete store leaves
title and description as they were. -/
theorem update_overwrites_exactly_supplied_fields_witness :
    ∃ t', (update_todo 1 ⟨none, none, some true⟩ 7
        ⟨[⟨1, "a", some "d", false, 2, 3⟩], 2⟩).1 = some t' ∧
      t'.id = (Todo.mk 1 "a" (some "d") false 2 3).id ∧
      t'.created_at = (Todo.mk 1 "a" (some "d") false 2 3).created_at ∧
      t'.updated_at = 7 ∧
      ((none : Option String) = none → t'.title = (Todo.mk 1 "a" (some "d") false 2 3).title) ∧
      (∀ v, (none : Option String) = some v → t'.title = v) ∧
      ((none : Option String) = none →
        t'.description = (Todo.mk 1 "a" (some "d") false 2 3).description) ∧
      (∀ v, (none : Option String) = some v → t'.description = some v) ∧
      ((some true : Option Bool) = none →
        t'.completed = (Todo.mk 1 "a" (some "d") false 2 3).completed) ∧
      (∀ v, (some true : Option Bool) = some v → t'.completed = v) :=
  update_overwrites_exactly_supplied_fields 1 7 ⟨none, none, some true⟩
    ⟨[⟨1, "a", some "d", false, 2, 3⟩], 2⟩ ⟨1, "a", some "d", false, 2, 3⟩ rfl

/-- C2: a created item carries the given title and description, has
`completed = false`, has both timestamps equal to the creation instant, is
stored, and its id is fresh: distinct from the id of every pre-existing
item, with all stored ids still pairwise distinct afterwards (uniqueness).
The id is represented as a total `Nat` field, so it is present (non-null)
on every created item by construction. -/
theorem create_todo_spec (d : TodoCreate) (now now' : Nat) (s : TodoStore)
    (hr : Reachable now s) (hle : now ≤ now') :
    (create_todo d now' s).1.title = d.title ∧
    (create_todo d now' s).1.description = d.description ∧
    (create_todo d now' s).1.completed = false ∧
    (create_todo d now' s).1.created_at = now' ∧
    (create_todo d now' s).1.updated_at = now' ∧
    (create_todo d now' s).1 ∈ (create_todo d now' s).2.todos ∧
    (∀ u ∈ s.todos, u.id ≠ (create_todo d now' s).1.id) ∧
    NodupIds (create_todo d now' s).2 := by
  have hinv := reachable_storeInv hr
  refine ⟨rfl, rfl, rfl, rfl, rfl, ?_, ?_, ?_⟩
  · simp [create_todo]
  · intro u hu
    exact Nat.ne_of_lt (hinv.1 u hu)
  · exact (storeInv_applyOp (Op.create d) hinv hle).2.1

/-- Witness for C2: creating an item in a reachable one-item store. -/
theorem create_todo_spec_witness :
    (create_todo ⟨"B", some "descB"⟩ 4 (applyOp (Op.create ⟨"A", none⟩) 2 emptyStore)).1.title
        = "B" ∧
    (create_todo ⟨"B", some "descB"⟩ 4
        (applyOp (Op.create ⟨"A", none⟩) 2 emptyStore)).1.description = some "descB" ∧
    (create_todo ⟨"B", some "descB"⟩ 4
        (applyOp (Op.create ⟨"A", none⟩) 2 emptyStore)).1.completed = false ∧
    (create_todo ⟨"B", some "descB"⟩ 4
        (applyOp (Op.create ⟨"A", none⟩) 2 emptyStore)).1.created_at = 4 ∧
    (create_todo ⟨"B", some "descB"⟩ 4
        (applyOp (Op.create ⟨"A", none⟩) 2 emptyStore)).1.updated_at = 4 ∧
    (create_todo ⟨"B", some "descB"⟩ 4 (applyOp (Op.create ⟨"A", none⟩) 2 emptyStore)).1
        ∈ (create_todo ⟨"B", some "descB"⟩ 4
            (applyOp (Op.create ⟨"A", none⟩) 2 emptyStore)).2.todos ∧
    (∀ u ∈ (applyOp (Op.create ⟨"A", none⟩) 2 emptyStore).todos,
      u.id ≠ (create_todo ⟨"B", some "descB"⟩ 4
          (applyOp (Op.create ⟨"A", none⟩) 2 emptyStore)).1.id) ∧
    NodupIds (create_todo ⟨"B", some "descB"⟩ 4
        (applyOp (Op.create ⟨"A", none⟩) 2 emptyStore)).2 :=
  create_todo_spec ⟨"B", some "descB"⟩ 2 4 _
    (Reachable.step (Op.create ⟨"A", none⟩) Reachable.init (by decide)) (by decide)

/-- C3: `get_all_todos` returns, in every store state, all items (a
permutation of the stored rows) ordered by `created_at` descending; in
particular three items created in sequence at strictly increasing instants
come back newest first, `[C, B, A]`. -/
theorem get_all_todos_ordered_desc :
    (∀ s : TodoStore,
      List.Perm (get_all_todos s) s.todos ∧
      List.Sorted (fun a b : Todo => b.created_at ≤ a.created_at) (get_all_todos s)) ∧
    (∀ (a b c : TodoCreate) (ta tb tc : Nat), ta < tb → tb < tc →
      get_all_todos
          (create_todo c tc (create_todo b tb (create_todo a ta emptyStore).2).2).2 =
        [(create_todo c tc (create_todo b tb (create_todo a ta emptyStore).2).2).1,
         (create_todo b tb (create_todo a ta emptyStore).2).1,
         (create_todo a ta emptyStore).1]) := by
  constructor
  · intro s
    exact ⟨sortDesc_perm _ s.todos, sortDesc_sorted _ s.todos⟩
  · intro a b c ta tb tc hab hbc
    have h1 : ¬ (tc ≤ tb) := not_le.mpr hbc
    have h2 : ¬ (tc ≤ ta) := not_le.mpr (lt_trans hab hbc)
    have h3 : ¬ (tb ≤ ta) := not_le.mpr hab
    simp [get_all_todos, create_todo, emptyStore, sortDesc, insertDesc, h1, h2, h3]

/-- Witness for C3: three concrete creations at instants 0 < 1 < 2 listed
newest-first. -/
theorem get_all_todos_ordered_desc_witness :
    (0 : Nat) < 1 ∧ (1 : Nat) < 2 ∧
    get_all_todos
        (create_todo ⟨"C", none⟩ 2
          (create_todo ⟨"B", none⟩ 1 (create_todo ⟨"A", none⟩ 0 emptyStore).2).2).2 =
      [(create_todo ⟨"C", none⟩ 2
          (create_todo ⟨"B", none⟩ 1 (create_todo ⟨"A", none⟩ 0 emptyStore).2).2).1,
       (create_todo ⟨"B", none⟩ 1 (create_todo ⟨"A", none⟩ 0 emptyStore).2).1,
       (create_todo ⟨"A", none⟩ 0 emptyStore).1] :=
  ⟨by decide, by decide,
    get_all_todos_ordered_desc.2 ⟨"A", none⟩ ⟨"B", none⟩ ⟨"C", none⟩ 0 1 2
      (by decide) (by decide)⟩

/-- C4: `toggle_todo_completion` returns the very same value and store as
`update_todo` with a partial set supplying only `completed`, set to the
negation of the item's current value; for an absent id both return the
not-found sentinel and leave the store unchanged. -/
theorem toggle_equiv_update (todo_id now : Nat) (s : TodoStore) :
    toggle_todo_completion todo_id now s =
      update_todo todo_id ⟨none, none, some (toggledValue todo_id s)⟩ now s ∧
    (get_todo todo_id s = none →
      toggle_todo_completion todo_id now s = (none, s) ∧
      ∀ d : TodoUpdate, update_todo todo_id d now s = (none, s)) := by
  constructor
  · cases hfind : s.getById todo_id with
    | none => rw [toggle_eq_none hfind, update_todo_eq_none hfind]
    | some t =>
      rw [toggle_eq_some hfind, update_todo_eq_some hfind]
      have heq : applyToggle t now =
          applyUpdate t ⟨none, none, some (toggledValue todo_id s)⟩ now := by
        simp [applyToggle, applyUpdate, toggledValue, get_todo, hfind]
      rw [heq]
  · intro hnone
    exact ⟨toggle_eq_none hnone, fun d => update_todo_eq_none hnone⟩

/-- Witness for C4: toggling an absent id on the empty store yields the
sentinel and leaves the store unchanged. -/
theorem toggle_equiv_update_witness :
    toggle_todo_completion 5 3 emptyStore = (none, emptyStore) :=
  ((toggle_equiv_update 5 3 emptyStore).2 rfl).1

theorem find?_eraseP_self {todo_id : Nat} {l : List Todo}
    (h : (l.map Todo.id).Nodup) :
    (l.eraseP (fun t => t.id == todo_id)).find? (fun t => t.id == todo_id) = none := by
  induction l with
  | nil => rfl
  | cons u rest ih =>
    rw [List.map_cons, List.nodup_cons] at h
    by_cases hu : (u.id == todo_id) = true
    · rw [List.eraseP_cons, hu, cond_true, List.find?_eq_none]
      intro t ht hteq
      apply h.1
      rw [beq_iff_eq.mp hu, ← beq_iff_eq.mp hteq]
      exact List.mem_map_of_mem Todo.id ht
    · have hu' : (u.id == todo_id) = false := by simpa using hu
      rw [List.eraseP_cons, hu', cond_false, List.find?_cons, hu']
      exact ih h.2

/-- C5: under the primary-key constraint (stored ids pairwise distinct),
`delete_todo` returns `true` exactly when the id exists; on an absent id
(including a never-existing one) it returns `false` and leaves the store
unchanged; after a delete, `get_todo` on that id returns the sentinel, and a
second delete of the same id returns `false`. -/
theorem delete_todo_spec (todo_id : Nat) (s : TodoStore) (hnodup : NodupIds s) :
    ((delete_todo todo_id s).1 = true ↔ (get_todo todo_id s).isSome = true) ∧
    (get_todo todo_id s = none → delete_todo todo_id s = (false, s)) ∧
    get_todo todo_id ((delete_todo todo_id s).2) = none ∧
    (delete_todo todo_id ((delete_todo todo_id s).2)).1 = false := by
  have hafter : get_todo todo_id ((delete_todo todo_id s).2) = none := by
    cases hfind : s.getById todo_id with
    | none =>
      rw [delete_eq_none hfind]
      exact hfind
    | some t =>
      rw [delete_eq_some hfind]
      exact find?_eraseP_self hnodup
  refine ⟨?_, ?_, hafter, ?_⟩
  · cases hfind : s.getById todo_id with
    | none =>
      have hg : get_todo todo_id s = none := hfind
      rw [delete_eq_none hfind, hg]
      simp
    | some t =>
      have hg : get_todo todo_id s = some t := hfind
      rw [delete_eq_some hfind, hg]
      simp
  · intro hnone
    exact delete_eq_none hnone
  · rw [(delete_eq_none hafter : delete_todo todo_id ((delete_todo todo_id s).2) = _)]

/-- Witness for C5: deleting id 1 from a concrete one-item store. -/
theorem delete_todo_spec_witness :
    ((delete_todo 1 ⟨[⟨1, "a", none, false, 0, 0⟩], 2⟩).1 = true ↔
      (get_todo 1 ⟨[⟨1, "a", none, false, 0, 0⟩], 2⟩).isSome = true) ∧
    (get_todo 1 ⟨[⟨1, "a", none, false, 0, 0⟩], 2⟩ = none →
      delete_todo 1 ⟨[⟨1, "a", none, false, 0, 0⟩], 2⟩ =
        (false, ⟨[⟨1, "a", none, false, 0, 0⟩], 2⟩)) ∧
    get_todo 1 ((delete_todo 1 ⟨[⟨1, "a", none, false, 0, 0⟩], 2⟩).2) = none ∧
    (delete_todo 1 ((delete_todo 1 ⟨[⟨1, "a", none, false, 0, 0⟩], 2⟩).2)).1 = false :=
  delete_todo_spec 1 ⟨[⟨1, "a", none, false, 0, 0⟩], 2⟩ (by unfold NodupIds; decide)

/-- C6: for every store state (so in particular every reachable one),
`get_task_stats` is computed by scanning `get_all_tasks`; `total` equals the
number of stored items, `completed` the number of completed stored items,
`pending` the difference, hence `completed + pending = total`; on the empty
store all three counts are 0. -/
theorem get_task_stats_spec (s : TaskStore) :
    (TaskService.get_task_stats s).total = s.tasks.length ∧
    (TaskService.get_task_stats s).completed = s.tasks.countP (fun t => t.completed) ∧
    (TaskService.get_task_stats s).pending =
      (TaskService.get_task_stats s).total - (TaskService.get_task_stats s).completed ∧
    (TaskService.get_task_stats s).completed + (TaskService.get_task_stats s).pending =
      (TaskService.get_task_stats s).total ∧
    TaskService.get_task_stats s =
      ⟨(TaskService.get_all_tasks s).length,
        (TaskService.get_all_tasks s).countP (fun t => t.completed),
        (TaskService.get_all_tasks s).length -
          (TaskService.get_all_tasks s).countP (fun t => t.completed)⟩ ∧
    TaskService.get_task_stats emptyTaskStore = ⟨0, 0, 0⟩ := by
  have hperm := sortDesc_perm (fun t : Task => t.created_at) s.tasks
  have hlen : (TaskService.get_all_tasks s).length = s.tasks.length := hperm.length_eq
  have hcount : (TaskService.get_all_tasks s).countP (fun t => t.completed) =
      s.tasks.countP (fun t => t.completed) := hperm.countP_eq _
  refine ⟨hlen, hcount, rfl, ?_, rfl, rfl⟩
  have hle : (TaskService.get_all_tasks s).countP (fun t => t.completed) ≤
      (TaskService.get_all_tasks s).length := List.countP_le_length _
  show (TaskService.get_all_tasks s).countP (fun t => t.completed) +
      ((TaskService.get_all_tasks s).length -
        (TaskService.get_all_tasks s).countP (fun t => t.completed)) =
      (TaskService.get_all_tasks s).length
  omega

/-- C7: for an id not present in the store, `get_todo`, `update_todo` and
`toggle_todo_completion` all return the not-found sentinel `none` (as total
functions, not exceptions) and leave the store completely unchanged. -/
theorem not_found_sentinel (todo_id now : Nat) (d : TodoUpdate) (s : TodoStore)
    (h : ∀ t ∈ s.todos, t.id ≠ todo_id) :
    get_todo todo_id s = none ∧
    update_todo todo_id d now s = (none, s) ∧
    toggle_todo_completion todo_id now s = (none, s) := by
  have hnone : s.getById todo_id = none := getById_eq_none.mpr h
  exact ⟨hnone, update_todo_eq_none hnone, toggle_eq_none hnone⟩

/-- Witness for C7: id 999 on a concrete one-item store. -/
theorem not_found_sentinel_witness :
    get_todo 999 ⟨[⟨1, "a", none, false, 0, 0⟩], 2⟩ = none ∧
    update_todo 999 ⟨some "x", none, none⟩ 5 ⟨[⟨1, "a", none, false, 0, 0⟩], 2⟩ =
      (none, ⟨[⟨1, "a", none, false, 0, 0⟩], 2⟩) ∧
    toggle_todo_completion 999 5 ⟨[⟨1, "a", none, false, 0, 0⟩], 2⟩ =
      (none, ⟨[⟨1, "a", none, false, 0, 0⟩], 2⟩) :=
  not_found_sentinel 999 5 ⟨some "x", none, none⟩ ⟨[⟨1, "a", none, false, 0, 0⟩], 2⟩
    (by decide)

/-- C8: in every reachable store, every item satisfies
`created_at ≤ updated_at`; and across a later `update_todo` or
`toggle_todo_completion` of an item (clock monotone), `created_at` is
preserved and `updated_at` never decreases. -/
theorem updated_at_monotone {now : Nat} {s : TodoStore} (hr : Reachable now s) :
    (∀ t ∈ s.todos, t.created_at ≤ t.updated_at) ∧
    (∀ (now' todo_id : Nat) (d : TodoUpdate) (t t' : Todo), now ≤ now' →
      get_todo todo_id s = some t →
      (update_todo todo_id d now' s).1 = some t' →
      t'.created_at = t.created_at ∧ t.updated_at ≤ t'.updated_at) ∧
    (∀ (now' todo_id : Nat) (t t' : Todo), now ≤ now' →
      get_todo todo_id s = some t →
      (toggle_todo_completion todo_id now' s).1 = some t' →
      t'.created_at = t.created_at ∧ t.updated_at ≤ t'.updated_at) := by
  obtain ⟨hfresh, hnodup, htime⟩ := reachable_storeInv hr
  refine ⟨fun t ht => (htime t ht).1, ?_, ?_⟩
  · intro now' todo_id d t t' hle hget hupd
    rw [update_todo_eq_some hget] at hupd
    have ht' : applyUpdate t d now' = t' := by simpa using hupd
    subst ht'
    exact ⟨rfl, le_trans (htime t (getById_some_mem hget)).2 hle⟩
  · intro now' todo_id t t' hle hget htog
    rw [toggle_eq_some hget] at htog
    have ht' : applyToggle t now' = t' := by simpa using htog
    subst ht'
    exact ⟨rfl, le_trans (htime t (getById_some_mem hget)).2 hle⟩

/-- Witness for C8: in the reachable store holding the item created at
instant 2, updating at instant 5 preserves `created_at` and does not
decrease `updated_at`. -/
theorem updated_at_monotone_witness :
    (Todo.mk 1 "a" none true 2 5).created_at = (Todo.mk 1 "a" none false 2 2).created_at ∧
    (Todo.mk 1 "a" none false 2 2).updated_at ≤ (Todo.mk 1 "a" none true 2 5).updated_at :=
  (updated_at_monotone
      (Reachable.step (Op.create ⟨"a", none⟩) Reachable.init (by decide))).2.1
    5 1 ⟨none, none, some true⟩ ⟨1, "a", none, false, 2, 2⟩ ⟨1, "a", none, true, 2, 5⟩
    (by decide) rfl rfl

/-- C9: the validated input shapes enforce the data-layer rules: building a
`TodoCreate` fails when `title` is absent, when the title exceeds 200
characters, or when the description exceeds 1000 characters; building a
`TodoUpdate` fails when a supplied title exceeds 200 characters or a
supplied description exceeds 1000 characters; and the empty-string title is
accepted by both shapes. -/
theorem validate_length_rules :
    (∀ d, TodoCreate.validate none d = none) ∧
    (∀ t d, 200 < t.length → TodoCreate.validate (some t) d = none) ∧
    (∀ t d, 1000 < d.length → TodoCreate.validate t (some d) = none) ∧
    (∀ t d c, 200 < t.length → TodoUpdate.validate (some t) d c = none) ∧
    (∀ t d c, 1000 < d.length → TodoUpdate.validate t (some d) c = none) ∧
    TodoCreate.validate (some "") none = some ⟨"", none⟩ ∧
    (∀ c, TodoUpdate.validate (some "") none c = some ⟨some "", none, c⟩) := by
  refine ⟨fun d => rfl, ?_, ?_, ?_, ?_, rfl, fun c => rfl⟩
  · intro t d h
    simp [TodoCreate.validate, Nat.not_le.mpr h]
  · intro t d h
    cases t with
    | none => rfl
    | some t =>
      simp [TodoCreate.validate, Nat.not_le.mpr h]
  · intro t d c h
    simp [TodoUpdate.validate, Nat.not_le.mpr h]
  · intro t d c h
    cases t with
    | none => simp [TodoUpdate.validate, Nat.not_le.mpr h]
    | some t => simp [TodoUpdate.validate, Nat.not_le.mpr h]

set_option maxRecDepth 10000 in
/-- Witness for C9: a 201-character title is rejected by `TodoCreate`, and
a 1001-character description is rejected by `TodoUpdate`. -/
theorem validate_length_rules_witness :
    (200 < (String.mk (List.replicate 201 'x')).length ∧
      TodoCreate.validate (some (String.mk (List.replicate 201 'x'))) none = none) ∧
    (1000 < (String.mk (List.replicate 1001 'y')).length ∧
      TodoUpdate.validate none (some (String.mk (List.replicate 1001 'y'))) none = none) :=
  ⟨⟨by decide, validate_length_rules.2.1 (String.mk (List.replicate 201 'x')) none
      (by decide)⟩,
    ⟨by decide, validate_length_rules.2.2.2.2.1 none (String.mk (List.replicate 1001 'y'))
      none (by decide)⟩⟩

/-- C10: `update_todo` treats `description = none` as "absent", never as
"set to null": an item whose description is non-null still has a non-null
description after any update, and `toggle_todo_completion` leaves the
description untouched, so no public operation clears a description. -/
theorem update_never_clears_description (todo_id now : Nat) (d : TodoUpdate)
    (s : TodoStore) (t t' : Todo)
    (hget : get_todo todo_id s = some t)
    (hupd : (update_todo todo_id d now s).1 = some t')
    (hdesc : t.description.isSome = true) :
    t'.description.isSome = true ∧
    (∀ t'', (toggle_todo_completion todo_id now s).1 = some t'' →
      t''.description = t.description) := by
  rw [update_todo_eq_some hget] at hupd
  have ht' : applyUpdate t d now = t' := by simpa using hupd
  subst ht'
  constructor
  · cases hd : d.description with
    | none => simpa [applyUpdate, hd] using hdesc
    | some v => simp [applyUpdate, hd]
  · intro t'' htog
    rw [toggle_eq_some hget] at htog
    have ht'' : applyToggle t now = t'' := by simpa using htog
    subst ht''
    rfl

/-- Witness for C10: an update supplying no description leaves the stored
description non-null. -/
theorem update_never_clears_description_witness :
    (Todo.mk 1 "a" (some "keep") true 0 9).description.isSome = true ∧
    (∀ t'', (toggle_todo_completion 1 9 ⟨[⟨1, "a", some "keep", false, 0, 0⟩], 2⟩).1
        = some t'' →
      t''.description = (Todo.mk 1 "a" (some "keep") false 0 0).description) :=
  update_never_clears_description 1 9 ⟨none, none, some true⟩
    ⟨[⟨1, "a", some "keep", false, 0, 0⟩], 2⟩
    ⟨1, "a", some "keep", false, 0, 0⟩ ⟨1, "a", some "keep", true, 0, 9⟩
    rfl rfl rfl

end TodoApp
